import Mathlib


/-!
Verification of the journald-to-CloudWatch delivery engine (`src/main.py`).

Shallow embedding of the delivery engine of the repository: destination
formatter, run segmenter, batcher, sequence-token store, delivery loop and
checkpoint behaviour.  Timestamps (`__REALTIME_TIMESTAMP`) are modelled as
integers counting microseconds (journald realtime precision); timedeltas
become integer microsecond counts.  The sink (the `boto3` client) is
modelled by explicit response values passed as arguments, one per network
call, so every function is executable and fallible calls return `Except`.
-/

/-- A journal record, keeping the two reserved fields the delivery engine
reads: `__REALTIME_TIMESTAMP` (microseconds, as `Int`) and `__CURSOR`. -/
structure Record where
  ts : Int
  cursor : String
deriving Repr, DecidableEq

/-- `datetime.timedelta(days=14)` in microseconds (`OLDEST_LOG_RETENTION`). -/
def OLDEST_LOG_RETENTION : Int := 14 * 86400 * 1000000

/-- The `maxlen=10` default of `LogGroupClient.group_messages`. -/
def MAXLEN : Nat := 10

/-- The `timespan=datetime.timedelta(hours=23)` default of
`LogGroupClient.group_messages`, in microseconds. -/
def TIMESPAN : Int := 23 * 3600 * 1000000

/-- One iteration's slice of `LogGroupClient.group_messages`:
`itertools.islice(itertools.takewhile(lambda m: m.ts - start < timespan, messages), maxlen)`
where `start` is the first message's timestamp. -/
def firstGroup (m : Record) (ms : List Record) : List Record :=
  ((m :: ms).takeWhile (fun x => x.ts - m.ts < TIMESPAN)).take MAXLEN

/-- `LogGroupClient.group_messages` with its default arguments
(`maxlen=10`, `timespan=23 hours`): repeatedly slice off a prefix bounded by
the 23-hour span from the first remaining record and the 10-item cap, and
yield it. -/
def LogGroupClient.group_messages : List Record → List (List Record)
  | [] => []
  | m :: ms =>
    firstGroup m ms ::
      LogGroupClient.group_messages ((m :: ms).drop (firstGroup m ms).length)
termination_by l => l.length
decreasing_by
  simp only [List.length_drop, List.length_cons]
  refine Nat.sub_lt (Nat.succ_pos _) ?_
  have h : (fun x => decide (x.ts - m.ts < TIMESPAN)) m = true := by
    simp [TIMESPAN]
  have h2 := @List.takeWhile_cons_of_pos _ (fun x => decide (x.ts - m.ts < TIMESPAN)) m ms h
  simp only [firstGroup]
  rw [h2]
  simp [MAXLEN]

/-- A resolved destination: the `(log group name, log stream name)` pair
returned by `CloudWatchClient.group_messages` for a record. -/
abbrev Dest := String × String

/-- `itertools.groupby(reader, key=...)` as used by
`CloudWatchClient.upload_journal_logs`: partition a list into maximal
consecutive runs whose elements share one key, pairing each run with its
key. -/
def groupby {α κ : Type} [DecidableEq κ] (key : α → κ) : List α → List (κ × List α)
  | [] => []
  | a :: l =>
    match groupby key l with
    | [] => [(key a, [a])]
    | (k, g) :: rest =>
      if key a = k then (k, a :: g) :: rest else (key a, [a]) :: (k, g) :: rest

/-- `CloudWatchClient.retain_message`: keep a message iff
`datetime.datetime.now() - message['__REALTIME_TIMESTAMP'] < retention`
with the default retention of 14 days.  `now` is the ambient clock value. -/
def CloudWatchClient.retain_message (now : Int) (message : Record) : Bool :=
  now - message.ts < OLDEST_LOG_RETENTION

/-- A journal field value as the formatter sees it: the serializable
scalars the templates are applied to (strings and integers suffice for the
routing fields exercised here). -/
inductive JValue where
  | str (s : String)
  | int (n : Int)
deriving Repr, DecidableEq

/-- Python `str()` applied to a field value when the placeholder is
substituted into the template. -/
def JValue.render : JValue → String
  | .str s => s
  | .int n => toString n

/-- Association-list lookup, modelling Python `dict` key lookup (`k in d` /
`d[k]`). -/
def alookup {β : Type} : List (String × β) → String → Option β
  | [], _ => none
  | (k, v) :: rest, key => if k = key then some v else alookup rest key

/-- `str.partition(sep)[0]`: the part before the first occurrence of `sep`
(the whole list when `sep` is absent). -/
def partBefore (sep : Char) (l : List Char) : List Char :=
  l.takeWhile (fun c => c != sep)

/-- `str.rpartition(sep)[2]`: the part after the last occurrence of `sep`
(the whole list when `sep` is absent). -/
def rpartAfter (sep : Char) (l : List Char) : List Char :=
  (l.reverse.takeWhile (fun c => c != sep)).reverse

/-- `normalise_unit`: strip systemd unit-name templating,
`'.'.join((unit.partition('@')[0], unit.rpartition('.')[2]))` when the name
contains `'@'`, the name unchanged otherwise. -/
def normalise_unit (unit : String) : String :=
  if '@' ∈ unit.toList then
    String.mk (partBefore '@' unit.toList) ++ "." ++ String.mk (rpartAfter '.' unit.toList)
  else unit

/-- Errors `Formatter.get_value` can raise: `KeyError` when no alternative
resolves, `TypeError` when a string operation hits a non-string value. -/
inductive FmtError where
  | keyError (k : String)
  | typeError
deriving Repr, DecidableEq

instance {ε α : Type} [DecidableEq ε] [DecidableEq α] : DecidableEq (Except ε α)
  | .ok a, .ok b =>
    if h : a = b then .isTrue (by rw [h]) else .isFalse (fun hc => by cases hc; exact h rfl)
  | .ok _, .error _ => .isFalse (fun hc => by cases hc)
  | .error _, .ok _ => .isFalse (fun hc => by cases hc)
  | .error e, .error f =>
    if h : e = f then .isTrue (by rw [h]) else .isFalse (fun hc => by cases hc; exact h rfl)

/-- `normalise_unit` applied to a raw field value: Python raises `TypeError`
on `'@' in unit` when the value is not a string. -/
def normaliseValue : JValue → Except FmtError JValue
  | .str s => .ok (.str (normalise_unit s))
  | .int _ => .error .typeError

/-- `key.split('|')` of a Python `str`, over its character list: split on
every `'|'`, keeping empty parts (so the result is always non-empty). -/
def splitPipe : List Char → List (List Char)
  | [] => [[]]
  | c :: rest =>
    if c = '|' then [] :: splitPipe rest
    else
      match splitPipe rest with
      | [] => [[c]]
      | w :: ws => (c :: w) :: ws

/-- The string-literal test in `Formatter.get_value`, on the alternative's
character list: `len(i) > 1 and (i[0] == '"' or i[0] == "'") and i[0] == i[-1]`. -/
def Formatter.isStringLit (i : List Char) : Bool :=
  match i with
  | [] => false
  | c :: rest =>
    decide (rest.length ≥ 1) && (c == '"' || c == '\'') &&
      (match (c :: rest).getLast? with
       | some d => c == d
       | none => false)

/-- The `$`-prefixed ("special key") branch of `Formatter.get_value`:
instance identity document fields, then the derived journald variables
`$unit` and `$docker_container`, then process environment variables.
`doc` is the cached identity document, `env` the process environment,
`kwargs` the record's fields. -/
def Formatter.specialValue (doc : List (String × JValue)) (env : List (String × String))
    (kwargs : List (String × JValue)) (k : String) : Option (Except FmtError JValue) :=
  match alookup doc k with
  | some v => some (.ok v)
  | none =>
    (if k = "unit" then
      match alookup kwargs "USER_UNIT" with
      | some v => some (normaliseValue v)
      | none =>
        match alookup kwargs "_SYSTEMD_UNIT" with
        | some v => some (normaliseValue v)
        | none => none
     else none) <|>
    (if k = "docker_container" then
      match alookup kwargs "CONTAINER_NAME" with
      | some cv =>
        if alookup kwargs "_SYSTEMD_UNIT" = some (.str "docker.service") then
          some (match cv with
                | .str s => .ok (.str (s ++ ".container"))
                | .int _ => .error .typeError)
        else none
      | none => none
     else none) <|>
    (alookup env k).map (fun s => .ok (.str s))

/-- One alternative `i` of a `|`-separated key in `Formatter.get_value`:
a matching-quoted alternative is a literal (`i[1:-1]`), a `$`-prefixed one
is a special key, otherwise the alternative is looked up as a record field;
`none` means the alternative does not resolve and the loop continues. -/
def Formatter.tryAlternative (doc : List (String × JValue)) (env : List (String × String))
    (kwargs : List (String × JValue)) (i : List Char) : Option (Except FmtError JValue) :=
  if Formatter.isStringLit i then
    some (.ok (.str (String.mk ((i.drop 1).dropLast))))
  else
    (match i with
     | '$' :: k => Formatter.specialValue doc env kwargs (String.mk k)
     | _ => none)
    <|> (alookup kwargs (String.mk i)).map .ok

/-- `Formatter.get_value` for a string key: try the `|`-separated
alternatives left to right and return the first that resolves; when none
does, fall back to `string.Formatter.get_value`, i.e. `kwargs[key]`, which
raises `KeyError` when the key is not a field. -/
def Formatter.get_value (doc : List (String × JValue)) (env : List (String × String))
    (kwargs : List (String × JValue)) (key : String) : Except FmtError JValue :=
  match (splitPipe key.toList).findSome? (Formatter.tryAlternative doc env kwargs) with
  | some r => r
  | none =>
    match alookup kwargs key with
    | some v => .ok v
    | none => .error (.keyError key)

/-- `LogGroupClient.ALREADY_EXISTS`. -/
def LogGroupClient.ALREADY_EXISTS : String := "ResourceAlreadyExistsException"

/-- `LogGroupClient.THROTTLED`. -/
def LogGroupClient.THROTTLED : String := "ThrottlingException"

/-- `LogGroupClient.OPERATION_ABORTED`. -/
def LogGroupClient.OPERATION_ABORTED : String := "OperationAbortedException"

/-- `LogGroupClient.INVALID_TOKEN`. -/
def LogGroupClient.INVALID_TOKEN : String := "InvalidSequenceTokenException"

/-- A `botocore.exceptions.ClientError`, reduced to the two fields the code
reads: `e.response['Error']['Code']` and `e.response['Error']['Message']`. -/
structure CError where
  code : String
  msg : String
deriving Repr, DecidableEq

/-- The sink's response to one provisioning call (`create_log_group` /
`create_log_stream`): normal return or a raised `ClientError`. -/
inductive SinkResp where
  | ok
  | clientError (e : CError)
deriving Repr, DecidableEq

/-- `LogGroupClient.create_log_group`: call the sink, swallow
`ResourceAlreadyExistsException`, re-raise anything else.  `resp` is the
sink's response to this call. -/
def LogGroupClient.create_log_group : SinkResp → Except CError Unit
  | .ok => .ok ()
  | .clientError e =>
    if e.code ≠ LogGroupClient.ALREADY_EXISTS then .error e else .ok ()

/-- `LogGroupClient.create_log_stream`: same pattern at stream scope. -/
def LogGroupClient.create_log_stream : SinkResp → Except CError Unit
  | .ok => .ok ()
  | .clientError e =>
    if e.code ≠ LogGroupClient.ALREADY_EXISTS then .error e else .ok ()

/-- The per-stream token cache `self.tokens` of a `LogGroupClient`: a map
from stream name to cached token, where a cached `none` means "known,
absent" (first write to the stream). -/
abbrev Tokens := List (String × Option String)

/-- Python `d[k] = v` on the token dict. -/
def tokensInsert : Tokens → String → Option String → Tokens
  | [], k, v => [(k, v)]
  | (k', v') :: rest, k, v =>
    if k' = k then (k, v) :: rest else (k', v') :: tokensInsert rest k v

/-- Python `d.pop(k)` minus the raising behaviour: remove the entry. -/
def tokensErase : Tokens → String → Tokens
  | [], _ => []
  | (k', v') :: rest, k => if k' = k then rest else (k', v') :: tokensErase rest k

/-- One entry of the sink's `describe_log_streams(...)['logStreams']`. -/
structure StreamDesc where
  logStreamName : String
  uploadSequenceToken : Option String
deriving Repr, DecidableEq

/-- `LogGroupClient.get_new_seq_token`: describe the streams whose name has
the given prefix (`describe` is the sink's `logStreams` answer, already
limited to one entry); when the first entry is named exactly `log_stream`,
return its `uploadSequenceToken`; otherwise create the stream and return
`None`.  The boolean records whether `create_log_stream` was called. -/
def LogGroupClient.get_new_seq_token (log_stream : String) (describe : List StreamDesc)
    (createResp : SinkResp) : Except CError (Option String × Bool) :=
  match describe with
  | s :: _ =>
    if s.logStreamName = log_stream then .ok (s.uploadSequenceToken, false)
    else
      match LogGroupClient.create_log_stream createResp with
      | .ok _ => .ok (none, true)
      | .error e => .error e
  | [] =>
    match LogGroupClient.create_log_stream createResp with
    | .ok _ => .ok (none, true)
    | .error e => .error e

/-- The sink responses consumed by one iteration of the retry loop in
`LogGroupClient._log_messages`: the describe answer and create response
used if the token cache misses, and the outcome of `put_log_events`. -/
structure Attempt where
  describe : List StreamDesc
  createResp : SinkResp
  put : SinkResp
  nextToken : String
deriving Repr, DecidableEq

/-- `LogGroupClient.get_seq_token`: return the cached token if the stream
is cached, otherwise fetch one with `get_new_seq_token`, cache it (even
when absent) and return it. -/
def LogGroupClient.get_seq_token (log_stream : String) (a : Attempt) (tokens : Tokens) :
    Except CError (Option String × Tokens) :=
  match alookup tokens log_stream with
  | some t => .ok (t, tokens)
  | none =>
    match LogGroupClient.get_new_seq_token log_stream a.describe a.createResp with
    | .ok (tok, _) => .ok (tok, tokensInsert tokens log_stream tok)
    | .error e => .error e

/-- Consume an exact literal from the front of the input (the literal part
of a regex pattern), returning the remaining input on success. -/
def dropLiteral : List Char → List Char → Option (List Char)
  | [], l => some l
  | _ :: _, [] => none
  | p :: ps, c :: cs => if c = p then dropLiteral ps cs else none

/-- The `': (\S+)'` tail of `NEXT_TOKEN_REGEX`: a literal `": "` followed
by a non-empty greedy run of non-whitespace characters (group 2). -/
def matchColonToken : List Char → Option (List Char)
  | c :: d :: rest =>
    if c = ':' ∧ d = ' ' then
      match rest.takeWhile (fun x => !x.isWhitespace) with
      | [] => none
      | tok => some tok
    else none
  | _ => none

/-- The `'(\sis)?: (\S+)'` tail of `NEXT_TOKEN_REGEX`, starting right after
the literal `sequenceToken`: try the greedy optional group `(\sis)` first,
backtracking to the empty alternative when the rest fails. -/
def matchAfterSeq (l : List Char) : Option (List Char) :=
  (match l with
   | c :: d :: e :: rest =>
     if c.isWhitespace ∧ d = 'i' ∧ e = 's' then matchColonToken rest else none
   | _ => none)
  <|> matchColonToken l

/-- A match of the full `NEXT_TOKEN_REGEX` pattern anchored at the current
position: the literal `sequenceToken` followed by `matchAfterSeq`. -/
def matchSeqTokenAt (l : List Char) : Option (List Char) :=
  match dropLiteral ['s', 'e', 'q', 'u', 'e', 'n', 'c', 'e', 'T', 'o', 'k', 'e', 'n'] l with
  | some rest => matchAfterSeq rest
  | none => none

/-- `NEXT_TOKEN_REGEX.search`: leftmost match of
`sequenceToken(\sis)?: (\S+)`, returning group 2. -/
def searchNextToken : List Char → Option (List Char)
  | [] => none
  | c :: rest => matchSeqTokenAt (c :: rest) <|> searchNextToken rest

/-- `NEXT_TOKEN_REGEX.search(message)`, returning `match.group(2)` as a
string. -/
def LogGroupClient.nextTokenSearch (message : String) : Option String :=
  (searchNextToken message.toList).map String.mk

/-- The `INVALID_TOKEN` recovery step inlined in
`LogGroupClient._log_messages`: parse the corrective token out of the error
message; on a parse storing `"null"` cache `None`, on a real value cache
it, and with no match `pop` the stream's cache entry (`none` is the
`KeyError` Python's `dict.pop` raises when the entry is already gone). -/
def LogGroupClient.invalidate (tokens : Tokens) (log_stream message : String) :
    Option Tokens :=
  match LogGroupClient.nextTokenSearch message with
  | some t =>
    some (tokensInsert tokens log_stream (if t = "null" then none else some t))
  | none =>
    match alookup tokens log_stream with
    | some _ => some (tokensErase tokens log_stream)
    | none => none

/-- The keyword arguments of the `put_log_events` call in
`CloudWatchClient.put_log_messages`:
`dict(sequenceToken=seq_token) if seq_token else {}` — Python truthiness,
so both `None` and the empty string omit the argument. -/
def CloudWatchClient.seqTokenKwargs : Option String → Option String
  | none => none
  | some t => if t = "" then none else some t

/-- The mutable state the delivery loop owns: the per-stream token cache
`self.tokens` and the checkpoint persisted by `CloudWatchClient.save_cursor`
(`none` models a missing cursor file). -/
structure CWState where
  tokens : Tokens
  cursor : Option String
deriving Repr, DecidableEq

/-- `CloudWatchClient.put_log_messages`: call `put_log_events` with the
batch (and `seqTokenKwargs seq_token` as keyword arguments), then persist
`messages[-1]['__CURSOR']` with `save_cursor` and return the response.
`put`/`nextToken` stand for the sink's response to this call; the returned
pair is `(nextSequenceToken, saved cursor)`.  An empty batch raises
`IndexError` at `messages[-1]` after a successful submission. -/
def CloudWatchClient.put_log_messages (messages : List Record) (seq_token : Option String)
    (put : SinkResp) (nextToken : String) : Except CError (String × String) :=
  match CloudWatchClient.seqTokenKwargs seq_token, put with
  | _, .clientError e => .error e
  | _, .ok =>
    match messages.getLast? with
    | some m => .ok (nextToken, m.cursor)
    | none => .error ⟨"IndexError", "list index out of range"⟩

/-- What the `except botocore.exceptions.ClientError` block of
`LogGroupClient._log_messages` decides to do with an error. -/
inductive ErrAction where
  | retry (tokens : Tokens)
  | fatal (e : CError) (tokens : Tokens)
deriving Repr, DecidableEq

/-- The error dispatch of `LogGroupClient._log_messages`: throttling sleeps
and retries, an aborted operation retries immediately, an invalid sequence
token runs the recovery step and retries (`dict.pop` on an absent entry
raises `KeyError`), and any other code re-raises. -/
def LogGroupClient.dispatchError (log_stream : String) (tokens : Tokens) (e : CError) :
    ErrAction :=
  if e.code = LogGroupClient.THROTTLED then .retry tokens
  else if e.code = LogGroupClient.OPERATION_ABORTED then .retry tokens
  else if e.code = LogGroupClient.INVALID_TOKEN then
    match LogGroupClient.invalidate tokens log_stream e.msg with
    | some tokens2 => .retry tokens2
    | none => .fatal ⟨"KeyError", log_stream⟩ tokens
  else .fatal e tokens

/-- Result of the retry loop: `done` is a confirmed submission, `failed` a
propagated exception, `pending` means the modelled supply of sink responses
ran out while the loop would still be retrying. -/
inductive LoopResult where
  | done (st : CWState)
  | failed (e : CError) (st : CWState)
  | pending (st : CWState)
deriving Repr, DecidableEq

/-- The `while True` retry loop of `LogGroupClient._log_messages`, one
`Attempt` of sink responses per iteration: fetch the sequence token, submit
the batch, and on success cache the response's `nextSequenceToken`; on a
`ClientError` (from the token fetch or the submission) dispatch on the
error code.  Token-cache updates survive a failed iteration; the checkpoint
is only written by the successful `put_log_messages`. -/
def LogGroupClient.logMessagesLoop (log_stream : String) (messages : List Record) :
    List Attempt → CWState → LoopResult
  | [], st => .pending st
  | a :: rest, st =>
    match LogGroupClient.get_seq_token log_stream a st.tokens with
    | .error e =>
      match LogGroupClient.dispatchError log_stream st.tokens e with
      | .retry tokens2 =>
        LogGroupClient.logMessagesLoop log_stream messages rest ⟨tokens2, st.cursor⟩
      | .fatal e2 tokens2 => .failed e2 ⟨tokens2, st.cursor⟩
    | .ok (seq_token, tokens1) =>
      match CloudWatchClient.put_log_messages messages seq_token a.put a.nextToken with
      | .ok (next, cur) =>
        .done ⟨tokensInsert tokens1 log_stream (some next), some cur⟩
      | .error e =>
        match LogGroupClient.dispatchError log_stream tokens1 e with
        | .retry tokens2 =>
          LogGroupClient.logMessagesLoop log_stream messages rest ⟨tokens2, st.cursor⟩
        | .fatal e2 tokens2 => .failed e2 ⟨tokens2, st.cursor⟩

/-- `LogGroupClient._log_messages`: an empty chunk returns immediately,
otherwise the retry loop runs. -/
def LogGroupClient.logMessagesChunk (log_stream : String) (messages : List Record)
    (attempts : List Attempt) (st : CWState) : LoopResult :=
  if messages.isEmpty then .done st
  else LogGroupClient.logMessagesLoop log_stream messages attempts st

theorem firstGroup_eq_cons (m : Record) (ms : List Record) :
    firstGroup m ms =
      m :: (ms.takeWhile (fun x => x.ts - m.ts < TIMESPAN)).take (MAXLEN - 1) := by
  have h : (fun x => decide (x.ts - m.ts < TIMESPAN)) m = true := by
    simp [TIMESPAN]
  have h2 := @List.takeWhile_cons_of_pos _ (fun x => decide (x.ts - m.ts < TIMESPAN)) m ms h
  simp only [firstGroup]
  rw [h2]
  rfl

theorem take_takeWhile_append_drop (p : α → Bool) :
    ∀ (l : List α) (n : Nat),
      (l.takeWhile p).take n ++ l.drop ((l.takeWhile p).take n).length = l
  | [], _ => by simp
  | a :: t, 0 => by simp
  | a :: t, n + 1 => by
    by_cases h : p a
    · rw [List.takeWhile_cons_of_pos h, List.take_succ_cons, List.length_cons,
        List.cons_append, List.drop_succ_cons]
      exact congrArg (a :: ·) (take_takeWhile_append_drop p t n)
    · simp [List.takeWhile_cons_of_neg h]

/-- C1: every batch yielded by `LogGroupClient.group_messages` (with its
defaults `maxlen=10`, `timespan=23h`) is non-empty, has at most 10 records,
every record in a batch is strictly less than 23 hours after the batch's
first record, and the concatenation of the batches equals the input list. -/
theorem c1_batching_bounds (msgs : List Record) :
    (∀ g ∈ LogGroupClient.group_messages msgs,
        ∃ first rest, g = first :: rest ∧ g.length ≤ MAXLEN ∧
          ∀ r ∈ g, r.ts - first.ts < TIMESPAN)
    ∧ (LogGroupClient.group_messages msgs).flatten = msgs := by
  induction msgs using LogGroupClient.group_messages.induct with
  | case1 =>
      refine ⟨fun g hg => ?_, by simp [LogGroupClient.group_messages]⟩
      simp [LogGroupClient.group_messages] at hg
  | case2 m ms ih =>
      obtain ⟨ihMem, ihJoin⟩ := ih
      constructor
      · intro g hg
        rw [LogGroupClient.group_messages] at hg
        rcases List.mem_cons.mp hg with hgf | hgrec
        · refine ⟨m, (ms.takeWhile (fun x => x.ts - m.ts < TIMESPAN)).take (MAXLEN - 1),
            hgf.trans (firstGroup_eq_cons m ms), ?_, ?_⟩
          · rw [hgf]
            simp only [firstGroup]
            exact List.length_take_le _ _
          · intro r hr
            rw [hgf] at hr
            simp only [firstGroup] at hr
            have h1 := List.mem_of_mem_take hr
            have h2 := List.mem_takeWhile_imp h1
            simpa using h2
        · exact ihMem g hgrec
      · rw [LogGroupClient.group_messages]
        rw [List.flatten_cons, ihJoin]
        simp only [firstGroup]
        exact take_takeWhile_append_drop _ (m :: ms) MAXLEN

/-- C4: three records resolving to destinations `A`, `B`, `A` with `A ≠ B`
are segmented into three separate single-record runs, in source order; the
two `A` records are never merged. -/
theorem c4_run_isolation (key : Record → Dest) (r1 r2 r3 : Record) (A B : Dest)
    (h1 : key r1 = A) (h2 : key r2 = B) (h3 : key r3 = A) (hAB : A ≠ B) :
    groupby key [r1, r2, r3] = [(A, [r1]), (B, [r2]), (A, [r3])] := by
  simp [groupby, h1, h2, h3, hAB, Ne.symm hAB]

/-- Witness for C4 at a concrete input. -/
theorem c4_run_isolation_witness :
    groupby (fun r : Record => ("g", r.cursor)) [⟨0, "x"⟩, ⟨1, "y"⟩, ⟨2, "x"⟩] =
      [(("g", "x"), [⟨0, "x"⟩]), (("g", "y"), [⟨1, "y"⟩]), (("g", "x"), [⟨2, "x"⟩])] :=
  c4_run_isolation (fun r => ("g", r.cursor)) ⟨0, "x"⟩ ⟨1, "y"⟩ ⟨2, "x"⟩
    ("g", "x") ("g", "y") rfl rfl rfl (by decide)

/-- C5: a record is retained iff it is strictly younger than 14 days: a
record timestamped exactly 14 days ago is dropped, a record one day old is
retained. -/
theorem c5_retention_filter (now : Int) (c1 c2 : String) :
    (∀ r : Record,
        CloudWatchClient.retain_message now r = true ↔ now - r.ts < OLDEST_LOG_RETENTION)
    ∧ CloudWatchClient.retain_message now ⟨now - OLDEST_LOG_RETENTION, c1⟩ = false
    ∧ CloudWatchClient.retain_message now ⟨now - 86400 * 1000000, c2⟩ = true := by
  refine ⟨fun r => by simp [CloudWatchClient.retain_message], ?_, ?_⟩
  · simp [CloudWatchClient.retain_message]
  · simp [CloudWatchClient.retain_message, OLDEST_LOG_RETENTION]

theorem findSome_of_first_some {α β : Type} {f : α → Option β} :
    ∀ (pre : List α) (i : α) (post : List α) (r : β),
      (∀ j ∈ pre, f j = none) → f i = some r →
      ((pre ++ i :: post).findSome? f) = some r
  | [], i, post, r, _, hi => by simp [List.findSome?, hi]
  | p :: pre, i, post, r, hpre, hi => by
    have hp : f p = none := hpre p (by simp)
    simp only [List.cons_append, List.findSome?, hp]
    exact findSome_of_first_some pre i post r (fun j hj => hpre j (by simp [hj])) hi

/-- C6: `|`-separated alternatives are evaluated left to right and the
first resolvable one wins; `"{a|b|'x'}"` with record `{b: 5}` resolves to
`5` (rendered `"5"`), with the empty record to the literal `"x"`; and when
no alternative resolves and the whole key is not itself a field, resolution
raises `KeyError` instead of silently dropping the record. -/
theorem c6_template_resolution (doc : List (String × JValue)) (env : List (String × String)) :
    (Formatter.get_value doc env [("b", .int 5)] "a|b|'x'" = .ok (.int 5)
      ∧ (Formatter.get_value doc env [("b", .int 5)] "a|b|'x'").map JValue.render = .ok "5")
    ∧ Formatter.get_value doc env [] "a|b|'x'" = .ok (.str "x")
    ∧ (∀ (key : String) (kwargs : List (String × JValue)) (pre post : List (List Char))
          (i : List Char) (r : Except FmtError JValue),
        splitPipe key.toList = pre ++ i :: post →
        (∀ j ∈ pre, Formatter.tryAlternative doc env kwargs j = none) →
        Formatter.tryAlternative doc env kwargs i = some r →
        Formatter.get_value doc env kwargs key = r)
    ∧ (∀ (key : String) (kwargs : List (String × JValue)),
        (∀ i ∈ splitPipe key.toList, Formatter.tryAlternative doc env kwargs i = none) →
        alookup kwargs key = none →
        Formatter.get_value doc env kwargs key = .error (.keyError key)) := by
  have hv : Formatter.get_value doc env [("b", .int 5)] "a|b|'x'" = .ok (.int 5) := by
    simp [Formatter.get_value, splitPipe, Formatter.tryAlternative, Formatter.isStringLit,
      Formatter.specialValue, alookup]
  refine ⟨⟨hv, ?_⟩, ?_, ?_, ?_⟩
  · rw [hv]; rfl
  · simp [Formatter.get_value, splitPipe, Formatter.tryAlternative, Formatter.isStringLit,
      Formatter.specialValue, alookup]
  · intro key kwargs pre post i r hsplit hpre hi
    unfold Formatter.get_value
    rw [hsplit, findSome_of_first_some pre i post r hpre hi]
  · intro key kwargs hall hkey
    unfold Formatter.get_value
    rw [List.findSome?_eq_none_iff.mpr hall, hkey]

/-- Witness for C6: no alternative of `"nope|$nada"` resolves against an
empty record, so resolution raises `KeyError`. -/
theorem c6_template_resolution_witness :
    Formatter.get_value [] [] [] "nope|$nada" = .error (.keyError "nope|$nada") :=
  (c6_template_resolution [] []).2.2.2 "nope|$nada" [] (by decide) (by decide)

theorem takeWhile_append_of_forall {α : Type} {p : α → Bool} :
    ∀ (l₁ : List α) (c : α) (l₂ : List α), (∀ x ∈ l₁, p x = true) → p c = false →
      (l₁ ++ c :: l₂).takeWhile p = l₁
  | [], _, _, _, hc => by simp [hc]
  | a :: l₁, c, l₂, hall, hc => by
    have ha : p a = true := hall a (by simp)
    simp only [List.cons_append, List.takeWhile_cons_of_pos ha]
    rw [takeWhile_append_of_forall l₁ c l₂ (fun x hx => hall x (by simp [hx])) hc]

theorem partBefore_at_sep (base rest : List Char) (hb : '@' ∉ base) :
    partBefore '@' (base ++ '@' :: rest) = base := by
  refine takeWhile_append_of_forall base '@' rest (fun x hx => ?_) (by simp)
  simp only [bne_iff_ne, ne_eq, decide_eq_true_eq]
  exact fun h => hb (h ▸ hx)

theorem rpartAfter_at_sep (front suffix : List Char) (hs : '.' ∉ suffix) :
    rpartAfter '.' (front ++ '.' :: suffix) = suffix := by
  unfold rpartAfter
  have h1 : (front ++ '.' :: suffix).reverse = suffix.reverse ++ '.' :: front.reverse := by
    simp
  rw [h1, takeWhile_append_of_forall suffix.reverse '.' front.reverse
    (fun x hx => ?_) (by simp), List.reverse_reverse]
  simp only [bne_iff_ne, ne_eq, decide_eq_true_eq]
  exact fun h => hs (h ▸ (List.mem_reverse.mp hx))

theorem string_mk_toList (s : String) : String.mk s.toList = s := rfl

/-- C9: the `$unit` derived variable prefers the (normalised) `USER_UNIT`
field over the (normalised) `_SYSTEMD_UNIT` field, provided the identity
document does not itself carry a `unit` field; and `normalise_unit` maps
`base@param.suffix` to `base.suffix` and leaves names without `'@'`
unchanged. -/
theorem c9_unit_variable (doc : List (String × JValue)) (env : List (String × String))
    (kwargs : List (String × JValue)) (hdoc : alookup doc "unit" = none) :
    (∀ u, alookup kwargs "USER_UNIT" = some (.str u) →
        Formatter.tryAlternative doc env kwargs "$unit".toList =
          some (.ok (.str (normalise_unit u))))
    ∧ (alookup kwargs "USER_UNIT" = none →
        ∀ s, alookup kwargs "_SYSTEMD_UNIT" = some (.str s) →
        Formatter.tryAlternative doc env kwargs "$unit".toList =
          some (.ok (.str (normalise_unit s))))
    ∧ (∀ base param suffix : String, '@' ∉ base.toList → '.' ∉ suffix.toList →
        normalise_unit (base ++ "@" ++ param ++ "." ++ suffix) = base ++ "." ++ suffix)
    ∧ (∀ u : String, '@' ∉ u.toList → normalise_unit u = u) := by
  have step : Formatter.tryAlternative doc env kwargs "$unit".toList =
      (Formatter.specialValue doc env kwargs "unit" <|>
        (alookup kwargs "$unit").map Except.ok) := rfl
  refine ⟨?_, ?_, ?_, ?_⟩
  · intro u hu
    rw [step]
    simp [Formatter.specialValue, hdoc, hu, normaliseValue]
  · intro hnone s hs
    rw [step]
    simp [Formatter.specialValue, hdoc, hnone, hs, normaliseValue]
  · intro base param suffix hb hs
    have hdata : (base ++ "@" ++ param ++ "." ++ suffix).toList =
        base.toList ++ '@' :: (param.toList ++ '.' :: suffix.toList) := by
      show (base ++ "@" ++ param ++ "." ++ suffix).data = _
      simp [String.data_append]
    have hmem : '@' ∈ (base ++ "@" ++ param ++ "." ++ suffix).toList := by
      rw [hdata]; simp
    unfold normalise_unit
    rw [if_pos hmem, hdata, partBefore_at_sep _ _ hb]
    have h2 : base.toList ++ '@' :: (param.toList ++ '.' :: suffix.toList) =
        (base.toList ++ '@' :: param.toList) ++ '.' :: suffix.toList := by simp
    rw [h2, rpartAfter_at_sep _ _ hs]
    show (String.mk base.data ++ "." ++ String.mk suffix.data) = _
    cases base with
    | mk bd => cases suffix with
      | mk sd => rfl
  · intro u hu
    unfold normalise_unit
    rw [if_neg hu]

/-- Witness for C9: with `USER_UNIT = "getty@tty1.service"` and an identity
document without a `unit` field, `$unit` resolves to the normalised
`"getty.service"`. -/
theorem c9_unit_variable_witness :
    Formatter.tryAlternative [] [] [("USER_UNIT", JValue.str "getty@tty1.service")]
        "$unit".toList = some (.ok (.str "getty.service")) :=
  (c9_unit_variable [] [] [("USER_UNIT", JValue.str "getty@tty1.service")] rfl).1
    "getty@tty1.service" rfl

/-- C7: an "already exists" error from a create-group or create-stream call
is swallowed (the call returns normally), and an error with any other code
is raised to the caller. -/
theorem c7_idempotent_provisioning :
    (∀ m : String,
        LogGroupClient.create_log_group (.clientError ⟨LogGroupClient.ALREADY_EXISTS, m⟩) =
          .ok ()
        ∧ LogGroupClient.create_log_stream (.clientError ⟨LogGroupClient.ALREADY_EXISTS, m⟩) =
          .ok ())
    ∧ (∀ c m : String, c ≠ LogGroupClient.ALREADY_EXISTS →
        LogGroupClient.create_log_group (.clientError ⟨c, m⟩) = .error ⟨c, m⟩
        ∧ LogGroupClient.create_log_stream (.clientError ⟨c, m⟩) = .error ⟨c, m⟩) := by
  refine ⟨fun m => ⟨?_, ?_⟩, fun c m hc => ⟨?_, ?_⟩⟩ <;>
    simp [LogGroupClient.create_log_group, LogGroupClient.create_log_stream, *]

/-- Witness for C7: an access-denied error is re-raised. -/
theorem c7_idempotent_provisioning_witness :
    LogGroupClient.create_log_group (.clientError ⟨"AccessDeniedException", "denied"⟩) =
      .error ⟨"AccessDeniedException", "denied"⟩ :=
  (c7_idempotent_provisioning.2 "AccessDeniedException" "denied" (by decide)).1

theorem takeWhile_eq_self_of_forall {α : Type} {p : α → Bool} :
    ∀ l : List α, (∀ c ∈ l, p c = true) → l.takeWhile p = l
  | [], _ => rfl
  | a :: l, hall => by
    rw [List.takeWhile_cons_of_pos (hall a (by simp))]
    rw [takeWhile_eq_self_of_forall l (fun c hc => hall c (by simp [hc]))]

theorem toList_ne_nil {s : String} (h : s ≠ "") : s.toList ≠ [] := by
  cases s with
  | mk data =>
    intro hd
    exact h (by rw [show data = ([] : List Char) from hd])

/-- Leftmost-match behaviour of `NEXT_TOKEN_REGEX.search` on the error
message CloudWatch actually produces: the first occurrence
`"sequenceToken is invalid"` does not complete a match (backtracking on the
optional group fails), and the second occurrence yields the corrective
token as group 2. -/
theorem nextTokenSearch_aws (t1 : String) (hne : t1 ≠ "")
    (hws : ∀ c ∈ t1.toList, c.isWhitespace = false) :
    LogGroupClient.nextTokenSearch
        ("The given sequenceToken is invalid. The next expected sequenceToken is: " ++ t1) =
      some t1 := by
  have h : t1.toList.takeWhile (fun c => !c.isWhitespace) = t1.toList :=
    takeWhile_eq_self_of_forall t1.toList (fun c hc => by simp [hws c hc])
  have hlist :
      ("The given sequenceToken is invalid. The next expected sequenceToken is: " ++ t1).toList =
        'T' :: 'h' :: 'e' :: ' ' :: 'g' :: 'i' :: 'v' :: 'e' :: 'n' :: ' ' :: 's' :: 'e' :: 'q' :: 'u' :: 'e' :: 'n' :: 'c' :: 'e' :: 'T' :: 'o' :: 'k' :: 'e' :: 'n' :: ' ' :: 'i' :: 's' :: ' ' :: 'i' :: 'n' :: 'v' :: 'a' :: 'l' :: 'i' :: 'd' :: '.' :: ' ' :: 'T' :: 'h' :: 'e' :: ' ' :: 'n' :: 'e' :: 'x' :: 't' :: ' ' :: 'e' :: 'x' :: 'p' :: 'e' :: 'c' :: 't' :: 'e' :: 'd' :: ' ' :: 's' :: 'e' :: 'q' :: 'u' :: 'e' :: 'n' :: 'c' :: 'e' :: 'T' :: 'o' :: 'k' :: 'e' :: 'n' :: ' ' :: 'i' :: 's' :: ':' :: ' ' :: t1.toList := by
    show (_ ++ _ : String).data = _
    rw [String.data_append]
    rfl
  obtain ⟨c, cs, hccs⟩ : ∃ c cs, t1.toList = c :: cs := by
    cases hl : t1.toList with
    | nil => exact absurd hl (toList_ne_nil hne)
    | cons c cs => exact ⟨c, cs, rfl⟩
  unfold LogGroupClient.nextTokenSearch
  rw [hlist, hccs]
  rw [hccs] at h
  have hmk : String.mk (c :: cs) = t1 := by
    rw [← hccs]; exact string_mk_toList t1
  simp [searchNextToken, matchSeqTokenAt, dropLiteral, matchAfterSeq, matchColonToken, h, hmk]

theorem alookup_tokensInsert_self : ∀ (tokens : Tokens) (k : String) (v : Option String),
    alookup (tokensInsert tokens k v) k = some v
  | [], k, v => by simp [tokensInsert, alookup]
  | (k', v') :: rest, k, v => by
    by_cases h : k' = k
    · simp [tokensInsert, h, alookup]
    · simp [tokensInsert, h, alookup, alookup_tokensInsert_self rest k v]

theorem alookup_eq_none_of_not_mem : ∀ (tokens : Tokens) (k : String),
    k ∉ tokens.map Prod.fst → alookup tokens k = none
  | [], _, _ => rfl
  | (k', _) :: rest, k, hm => by
    have h1 : ¬ k' = k := fun he => hm (by simp [he])
    simp [alookup, h1, alookup_eq_none_of_not_mem rest k (fun hmem => hm (by simp [hmem]))]

theorem alookup_tokensErase_self : ∀ (tokens : Tokens) (k : String),
    (tokens.map Prod.fst).Nodup → alookup (tokensErase tokens k) k = none
  | [], _, _ => rfl
  | (k', v') :: rest, k, hnd => by
    obtain ⟨hni, hnd'⟩ := List.nodup_cons.mp hnd
    by_cases h : k' = k
    · subst h
      simp only [tokensErase, if_pos rfl]
      exact alookup_eq_none_of_not_mem rest k' hni
    · simp [tokensErase, h, alookup, alookup_tokensErase_self rest k hnd']

/-- C3: invalid-sequence-token recovery.  When the error message carries
`"sequenceToken is: T1"`, the cached token for the stream becomes `T1` and
the next submission uses `T1`; when the parsed literal is `"null"`, the
cached token becomes absent and the next submission omits the token
argument; when the message does not match the pattern, the stream's cache
entry is removed so the next `get_seq_token` performs a fresh
describe-stream lookup. -/
theorem c3_token_recovery (tokens : Tokens) (log_stream : String) :
    (∀ t1 : String, t1 ≠ "" → t1 ≠ "null" →
        (∀ c ∈ t1.toList, c.isWhitespace = false) →
        LogGroupClient.invalidate tokens log_stream
            ("The given sequenceToken is invalid. The next expected sequenceToken is: " ++ t1)
          = some (tokensInsert tokens log_stream (some t1))
        ∧ (∀ a : Attempt,
            LogGroupClient.get_seq_token log_stream a
                (tokensInsert tokens log_stream (some t1)) =
              .ok (some t1, tokensInsert tokens log_stream (some t1)))
        ∧ CloudWatchClient.seqTokenKwargs (some t1) = some t1)
    ∧ (LogGroupClient.invalidate tokens log_stream
          ("The given sequenceToken is invalid. The next expected sequenceToken is: " ++ "null")
        = some (tokensInsert tokens log_stream none)
        ∧ (∀ a : Attempt,
            LogGroupClient.get_seq_token log_stream a (tokensInsert tokens log_stream none) =
              .ok (none, tokensInsert tokens log_stream none))
        ∧ CloudWatchClient.seqTokenKwargs none = none)
    ∧ ((tokens.map Prod.fst).Nodup →
        ∀ v, alookup tokens log_stream = some v →
        LogGroupClient.invalidate tokens log_stream
            "An error occurred (InvalidSequenceTokenException) when calling the PutLogEvents operation"
          = some (tokensErase tokens log_stream)
        ∧ alookup (tokensErase tokens log_stream) log_stream = none
        ∧ (∀ a : Attempt,
            LogGroupClient.get_seq_token log_stream a (tokensErase tokens log_stream) =
              match LogGroupClient.get_new_seq_token log_stream a.describe a.createResp with
              | .ok (tok, _) =>
                .ok (tok, tokensInsert (tokensErase tokens log_stream) log_stream tok)
              | .error e => .error e)) := by
  refine ⟨?_, ?_, ?_⟩
  · intro t1 hne hnull hws
    have hsearch := nextTokenSearch_aws t1 hne hws
    refine ⟨?_, ?_, ?_⟩
    · simp [LogGroupClient.invalidate, hsearch, hnull]
    · intro a
      simp [LogGroupClient.get_seq_token, alookup_tokensInsert_self]
    · simp [CloudWatchClient.seqTokenKwargs, hne]
  · have hsearch := nextTokenSearch_aws "null" (by decide) (by decide)
    have hsearch2 : LogGroupClient.nextTokenSearch
        "The given sequenceToken is invalid. The next expected sequenceToken is: null" =
          some "null" := by
      simpa using hsearch
    refine ⟨?_, ?_, rfl⟩
    · simp [LogGroupClient.invalidate, hsearch2]
    · intro a
      simp [LogGroupClient.get_seq_token, alookup_tokensInsert_self]
  · intro hnd v hv
    have hsearch : LogGroupClient.nextTokenSearch
        "An error occurred (InvalidSequenceTokenException) when calling the PutLogEvents operation"
        = none := by decide
    have herase := alookup_tokensErase_self tokens log_stream hnd
    refine ⟨?_, herase, ?_⟩
    · simp [LogGroupClient.invalidate, hsearch, hv]
    · intro a
      simp [LogGroupClient.get_seq_token, herase]

/-- Witness for C3 at a concrete input: recovery caches the parsed token. -/
theorem c3_token_recovery_witness :
    LogGroupClient.invalidate [] "s"
        ("The given sequenceToken is invalid. The next expected sequenceToken is: " ++
          "TOK49615")
      = some [("s", some "TOK49615")] :=
  ((c3_token_recovery [] "s").1 "TOK49615" (by decide) (by decide) (by decide)).1

/-- C8 counterexample: a present empty-string token is *not* passed through
as the `sequenceToken` argument — Python truthiness drops it, so the claim
"when a token is present, it is passed" fails at `some ""`. -/
theorem c8_counterexample :
    CloudWatchClient.seqTokenKwargs (some "") ≠ some "" := by decide

/-- C8 (amended): an absent token omits the `sequenceToken` argument
entirely, a present non-empty token is passed through as the
`sequenceToken` argument, and a present empty-string token is omitted as
well (the code tests Python truthiness, not only `None`-ness). -/
theorem c8_token_argument :
    CloudWatchClient.seqTokenKwargs none = none
    ∧ (∀ t : String, t ≠ "" → CloudWatchClient.seqTokenKwargs (some t) = some t)
    ∧ CloudWatchClient.seqTokenKwargs (some "") = none := by
  refine ⟨rfl, fun t ht => ?_, rfl⟩
  simp [CloudWatchClient.seqTokenKwargs, ht]

/-- Witness for C8 at a concrete non-empty token. -/
theorem c8_token_argument_witness :
    CloudWatchClient.seqTokenKwargs (some "49615") = some "49615" :=
  c8_token_argument.2.1 "49615" (by decide)

/-- C10: when the describe-by-prefix answer is non-empty but its first
entry's name is not exactly the requested stream (it merely extends it),
`get_new_seq_token` treats the stream as not found: it issues a
create-stream call (already-exists swallowed) and returns an absent
token. -/
theorem c10_prefix_mismatch (log_stream ext : String) (s : StreamDesc)
    (rest : List StreamDesc) (createResp : SinkResp)
    (hname : s.logStreamName = log_stream ++ ext)
    (hne : s.logStreamName ≠ log_stream) :
    (LogGroupClient.get_new_seq_token log_stream (s :: rest) createResp =
      match LogGroupClient.create_log_stream createResp with
      | .ok _ => .ok (none, true)
      | .error e => .error e)
    ∧ (∀ m, createResp = .clientError ⟨LogGroupClient.ALREADY_EXISTS, m⟩ →
        LogGroupClient.get_new_seq_token log_stream (s :: rest) createResp = .ok (none, true))
    ∧ (createResp = .ok →
        LogGroupClient.get_new_seq_token log_stream (s :: rest) createResp = .ok (none, true))
    ∧ (∀ c m, c ≠ LogGroupClient.ALREADY_EXISTS → createResp = .clientError ⟨c, m⟩ →
        LogGroupClient.get_new_seq_token log_stream (s :: rest) createResp = .error ⟨c, m⟩) := by
  refine ⟨?_, ?_, ?_, ?_⟩
  · simp [LogGroupClient.get_new_seq_token, hne]
  · intro m hm
    subst hm
    simp [LogGroupClient.get_new_seq_token, hne, LogGroupClient.create_log_stream]
  · intro hm
    subst hm
    simp [LogGroupClient.get_new_seq_token, hne, LogGroupClient.create_log_stream]
  · intro c m hc hm
    subst hm
    simp [LogGroupClient.get_new_seq_token, hne, LogGroupClient.create_log_stream, hc]

/-- Witness for C10: stream `"svc"` with a prefix-matching but differently
named stream `"svc-old"` present. -/
theorem c10_prefix_mismatch_witness :
    LogGroupClient.get_new_seq_token "svc" [⟨"svc-old", some "T"⟩] .ok = .ok (none, true) :=
  (c10_prefix_mismatch "svc" "-old" ⟨"svc-old", some "T"⟩ [] .ok rfl (by decide)).2.2.1 rfl

theorem put_log_messages_ok_cursor (messages : List Record) (m : Record)
    (seq_token : Option String) (put : SinkResp) (nt n c : String)
    (hlast : messages.getLast? = some m)
    (h : CloudWatchClient.put_log_messages messages seq_token put nt = .ok (n, c)) :
    c = m.cursor := by
  cases put with
  | clientError e => simp [CloudWatchClient.put_log_messages] at h
  | ok =>
    simp [CloudWatchClient.put_log_messages, hlast] at h
    exact h.2.symm

/-- C2: for a non-empty batch, a run of the retry loop that ends in a
confirmed submission leaves the checkpoint equal to the `__CURSOR` of the
batch's last record; a run that ends with a propagated error leaves the
checkpoint unchanged; and an attempt whose submission fails with a
non-retryable code propagates exactly that error. -/
theorem c2_checkpoint (log_stream : String) (messages : List Record) (m : Record)
    (hlast : messages.getLast? = some m) :
    (∀ (attempts : List Attempt) (st st' : CWState),
        LogGroupClient.logMessagesLoop log_stream messages attempts st = .done st' →
        st'.cursor = some m.cursor)
    ∧ (∀ (attempts : List Attempt) (st : CWState) (e : CError) (st' : CWState),
        LogGroupClient.logMessagesLoop log_stream messages attempts st = .failed e st' →
        st'.cursor = st.cursor)
    ∧ (∀ (a : Attempt) (rest : List Attempt) (st : CWState) (tok : Option String)
          (tokens1 : Tokens) (e : CError),
        LogGroupClient.get_seq_token log_stream a st.tokens = .ok (tok, tokens1) →
        a.put = .clientError e →
        e.code ≠ LogGroupClient.THROTTLED →
        e.code ≠ LogGroupClient.OPERATION_ABORTED →
        e.code ≠ LogGroupClient.INVALID_TOKEN →
        LogGroupClient.logMessagesLoop log_stream messages (a :: rest) st =
          .failed e ⟨tokens1, st.cursor⟩) := by
  have main : ∀ (attempts : List Attempt) (st : CWState),
      (∀ st', LogGroupClient.logMessagesLoop log_stream messages attempts st = .done st' →
          st'.cursor = some m.cursor)
      ∧ (∀ e st',
          LogGroupClient.logMessagesLoop log_stream messages attempts st = .failed e st' →
          st'.cursor = st.cursor) := by
    intro attempts
    induction attempts with
    | nil =>
      refine fun st => ⟨fun st' h => ?_, fun e st' h => ?_⟩ <;>
        simp [LogGroupClient.logMessagesLoop] at h
    | cons a rest ih =>
      intro st
      constructor
      · intro st' h
        rw [LogGroupClient.logMessagesLoop] at h
        cases hget : LogGroupClient.get_seq_token log_stream a st.tokens with
        | error e0 =>
          simp only [hget] at h
          cases hd : LogGroupClient.dispatchError log_stream st.tokens e0 with
          | retry tokens2 =>
            simp only [hd] at h
            exact (ih ⟨tokens2, st.cursor⟩).1 st' h
          | fatal e2 tokens2 =>
            simp only [hd] at h
            simp at h
        | ok p =>
          obtain ⟨tok, tokens1⟩ := p
          simp only [hget] at h
          cases hput : CloudWatchClient.put_log_messages messages tok a.put a.nextToken with
          | ok q =>
            obtain ⟨next, cur⟩ := q
            simp only [hput] at h
            have hcur := put_log_messages_ok_cursor messages m tok a.put a.nextToken
              next cur hlast hput
            cases st' with
            | mk tks cur' =>
              simp at h
              simp [← h.2, hcur]
          | error e0 =>
            simp only [hput] at h
            cases hd : LogGroupClient.dispatchError log_stream tokens1 e0 with
            | retry tokens2 =>
              simp only [hd] at h
              exact (ih ⟨tokens2, st.cursor⟩).1 st' h
            | fatal e2 tokens2 =>
              simp only [hd] at h
              simp at h
      · intro e st' h
        rw [LogGroupClient.logMessagesLoop] at h
        cases hget : LogGroupClient.get_seq_token log_stream a st.tokens with
        | error e0 =>
          simp only [hget] at h
          cases hd : LogGroupClient.dispatchError log_stream st.tokens e0 with
          | retry tokens2 =>
            simp only [hd] at h
            exact (ih ⟨tokens2, st.cursor⟩).2 e st' h
          | fatal e2 tokens2 =>
            simp only [hd] at h
            cases st' with
            | mk tks cur' =>
              simp at h
              simp [← h.2.2]
        | ok p =>
          obtain ⟨tok, tokens1⟩ := p
          simp only [hget] at h
          cases hput : CloudWatchClient.put_log_messages messages tok a.put a.nextToken with
          | ok q =>
            obtain ⟨next, cur⟩ := q
            simp only [hput] at h
            simp at h
          | error e0 =>
            simp only [hput] at h
            cases hd : LogGroupClient.dispatchError log_stream tokens1 e0 with
            | retry tokens2 =>
              simp only [hd] at h
              exact (ih ⟨tokens2, st.cursor⟩).2 e st' h
            | fatal e2 tokens2 =>
              simp only [hd] at h
              cases st' with
              | mk tks cur' =>
                simp at h
                simp [← h.2.2]
  refine ⟨fun attempts st st' => (main attempts st).1 st',
    fun attempts st e st' => (main attempts st).2 e st', ?_⟩
  intro a rest st tok tokens1 e hget hput hth hab hinv
  rw [LogGroupClient.logMessagesLoop]
  have hperr : CloudWatchClient.put_log_messages messages tok a.put a.nextToken = .error e := by
    rw [hput]
    simp [CloudWatchClient.put_log_messages]
  simp only [hget, hperr]
  simp [LogGroupClient.dispatchError, hth, hab, hinv]

/-- Witness for C2 at a concrete run: one attempt, token-cache miss, stream
created, submission confirmed with next token `"T1"`; the checkpoint ends
up at the batch's last (only) cursor `"c0"`. -/
theorem c2_checkpoint_witness :
    LogGroupClient.logMessagesLoop "s" [⟨0, "c0"⟩] [⟨[], .ok, .ok, "T1"⟩] ⟨[], none⟩ =
        .done ⟨[("s", some "T1")], some "c0"⟩
    ∧ (⟨[("s", some "T1")], some "c0"⟩ : CWState).cursor =
        some (Record.cursor ⟨0, "c0"⟩) :=
  ⟨by rfl,
   (c2_checkpoint "s" [⟨0, "c0"⟩] ⟨0, "c0"⟩ rfl).1 [⟨[], .ok, .ok, "T1"⟩] ⟨[], none⟩
     ⟨[("s", some "T1")], some "c0"⟩ (by rfl)⟩

/-- Witness for C1 at a concrete input. -/
theorem c1_batching_bounds_witness :
    (LogGroupClient.group_messages [⟨0, "a"⟩, ⟨1, "b"⟩]).flatten = [⟨0, "a"⟩, ⟨1, "b"⟩] :=
  (c1_batching_bounds [⟨0, "a"⟩, ⟨1, "b"⟩]).2

/-- Witness for C5 at a concrete input. -/
theorem c5_retention_filter_witness :
    CloudWatchClient.retain_message 0 ⟨0 - OLDEST_LOG_RETENTION, "old"⟩ = false :=
  (c5_retention_filter 0 "old" "fresh").2.1
